import Mathlib

/-!
Shallow embedding of the `ts-randomstring` library
(`src/characterSetHandler.ts` and `src/randomString.ts`).

Strings are modelled as `List Char`, bytes as `Nat` (values 0..255 in every
run considered), and the platform byte source (`crypto.randomBytes`) as an
explicit list of responses, each either an error message or a byte buffer.
-/

namespace TsRandomString

/-- `CharacterSetType` enum from `characterSetHandler.ts`. -/
inductive CharacterSetType where
  | Alphanumeric
  | Alphabetic
  | Numeric
  | Hex
  | Binary
  | Octal
deriving DecidableEq, Repr

/-- `Capitalisation` enum from `characterSetHandler.ts`
(also exported under the alias `Capitalization`). -/
inductive Capitalisation where
  | Mixed
  | Uppercase
  | Lowercase
deriving DecidableEq, Repr

/-- `const numbers = "0123456789"`. -/
def numbers : List Char := "0123456789".toList

/-- `const charsLower = "abcdefghijklmnopqrstuvwxyz"`. -/
def charsLower : List Char := "abcdefghijklmnopqrstuvwxyz".toList

/-- `const charsUpper = charsLower.toUpperCase()`. -/
def charsUpper : List Char := charsLower.map Char.toUpper

/-- `getCharacterSet` from `characterSetHandler.ts`: compose the pool by
type via the `switch`, then apply the capitalisation transform. -/
def getCharacterSet (charSetType : CharacterSetType) (capitalisation : Capitalisation) : List Char :=
  let charSet : List Char :=
    match charSetType with
    | .Alphanumeric => numbers ++ charsLower ++ charsUpper
    | .Alphabetic => charsLower ++ charsUpper
    | .Numeric => numbers
    | .Hex => numbers ++ "abcdef".toList
    | .Binary => "01".toList
    | .Octal => "01234567".toList
  match capitalisation with
  | .Uppercase => charSet.map Char.toUpper
  | .Lowercase => charSet.map Char.toLower
  | .Mixed => charSet

/-- `RandomStringOptions` (the merged UK/US interface from
`randomString.ts`): all fields optional; both capitalisation spellings are
distinct properties of the options object. -/
structure RandomStringOptions where
  length : Option Int := none
  charSetType : Option CharacterSetType := none
  capitalisation : Option Capitalisation := none
  capitalization : Option Capitalisation := none
deriving DecidableEq, Repr

/-- `RandomString.parseOptions`: `options?.length ?? 32`,
`options?.charSetType ?? CharacterSetType.Alphanumeric`,
`options?.capitalisation ?? Capitalisation.Mixed`.
Note the source reads only the UK-spelled `capitalisation` property. -/
def parseOptions (options : Option RandomStringOptions) : Int × CharacterSetType × Capitalisation :=
  ((options.bind (·.length)).getD 32,
   (options.bind (·.charSetType)).getD .Alphanumeric,
   (options.bind (·.capitalisation)).getD .Mixed)

/-- `RandomString.getMaxByte`: `256 - (256 % length)`. -/
def getMaxByte (length : Nat) : Nat :=
  256 - 256 % length

/-- Ceiling division on naturals, modelling `Math.ceil(a / b)` for the
non-negative integer operands that arise in the source. -/
def ceilDiv (a b : Nat) : Nat :=
  (a + b - 1) / b

/-- One response of the platform byte source (`crypto.randomBytes`):
either a caught error (its string rendering) or a byte buffer. -/
abbrev ByteSourceResponse := Except (List Char) (List Nat)

/-- The string built by `generate` when `getRandomBytesSafe` returns an
error: the template literal
`getRandomBytesSafe internal error :: [error]` (error text appended). -/
def errorMessage (e : List Char) : List Char :=
  "getRandomBytesSafe internal error :: ".toList ++ e

/-- `RandomString.generateString`: walk the buffer left to right while the
output is still short of `state.length`; a byte `b < maxByte` appends
`charSet.charAt(b % charSet.length)`, any other byte is discarded.
`charAt` yields the empty string when the character set is empty, hence
the `Option.toList` of the looked-up character. -/
def generateString (buffer : List Nat) (generated : List Char) (charSet : List Char)
    (len : Int) (maxByte : Nat) : List Char :=
  match buffer with
  | [] => generated
  | b :: rest =>
    if (generated.length : Int) < len then
      if b < maxByte then
        generateString rest (generated ++ (charSet.get? (b % charSet.length)).toList)
          charSet len maxByte
      else
        generateString rest generated charSet len maxByte
    else
      generated

/-- The `while (generated.length < length)` loop of `RandomString.generate`.
`responses` prescribes the successive results of `getRandomBytesSafe`; the
first component of the result records the byte count requested in each
round (`Math.ceil(length * 256 / maxByte)`, with the original `length`),
and the second is `some` of the returned string, or `none` when the
prescribed responses run out before the loop exits (the run is still in
flight). An error response makes the loop return the error-message string
itself, exactly as the source does. -/
def generateLoop (charSet : List Char) (len : Int) (generated : List Char) :
    List ByteSourceResponse → List Nat × Option (List Char)
  | [] =>
    if (generated.length : Int) < len then ([], none) else ([], some generated)
  | resp :: rest =>
    if (generated.length : Int) < len then
      let maxByte := getMaxByte charSet.length
      let req := ceilDiv (len.toNat * 256) maxByte
      match resp with
      | .error e => ([req], some (errorMessage e))
      | .ok buffer =>
        let next :=
          generateLoop charSet len (generateString buffer generated charSet len maxByte) rest
        (req :: next.1, next.2)
    else
      ([], some generated)

/-- `RandomString.generate`: parse options, resolve the character set, and
run the refill loop starting from the empty string. -/
def generate (options : Option RandomStringOptions) (responses : List ByteSourceResponse) :
    List Nat × Option (List Char) :=
  let p := parseOptions options
  let charSet := getCharacterSet p.2.1 p.2.2
  generateLoop charSet p.1 [] responses

/-- An observable event of the asynchronous variant: an invocation of the
caller's continuation `(error, generated)`, or a thrown exception that
escapes the `randomBytes` callback. -/
inductive AsyncEvent where
  | invoke (error : Option (List Char)) (generated : Option (List Char))
  | crash (message : List Char)
deriving DecidableEq, Repr

/-- `RandomString.generateStringAsync`. The source reads the free
identifier `length` inside this method — there is no local or class
binding of that name, so it denotes the ambient/global `length` value of
the host environment, NOT `state.length`; it is modelled by the explicit
`ambientLength` parameter. Each round calls `randomBytes(length, cb)`
(recorded in the first component). In the callback, an error first
invokes the continuation with `(error, undefined)` and then — because the
source has no `return` after that call — falls through to
`generateString(buffer, state)` with `buffer === undefined`, which throws
(modelled as a `crash` event). On a buffer, the new string is compared
against the ambient `length`: if shorter the method recurses, otherwise
the continuation is invoked with `(undefined, newGenerated)`. An empty
`responses` list models a request whose callback never fires. -/
def generateStringAsync (ambientLength : Nat) (charSet : List Char) (len : Int)
    (maxByte : Nat) (generated : List Char) :
    List ByteSourceResponse → List Nat × List AsyncEvent
  | [] => ([ambientLength], [])
  | resp :: rest =>
    match resp with
    | .error e =>
      ([ambientLength],
       [.invoke (some e) none,
        .crash "TypeError: Cannot read properties of undefined".toList])
    | .ok buffer =>
      let newGenerated := generateString buffer generated charSet len maxByte
      if newGenerated.length < ambientLength then
        let next := generateStringAsync ambientLength charSet len maxByte newGenerated rest
        (ambientLength :: next.1, next.2)
      else
        ([ambientLength], [.invoke none (some newGenerated)])

/-- `RandomString.generateAsync`: parse options, resolve the character
set, build the initial state (empty output, `maxByte` computed once) and
start `generateStringAsync`. -/
def generateAsync (ambientLength : Nat) (options : Option RandomStringOptions)
    (responses : List ByteSourceResponse) : List Nat × List AsyncEvent :=
  let p := parseOptions options
  let charSet := getCharacterSet p.2.1 p.2.2
  generateStringAsync ambientLength charSet p.1 (getMaxByte charSet.length) [] responses

/-! ### Helper lemmas -/

/-- `generateString` checks `generated.length < length` before each append
and appends at most one character, so it never pushes the output past the
target length. -/
theorem generateString_length_le (buffer : List Nat) (charSet : List Char) (len : Int)
    (maxByte : Nat) :
    ∀ generated : List Char, (generated.length : Int) ≤ len →
      ((generateString buffer generated charSet len maxByte).length : Int) ≤ len := by
  induction buffer with
  | nil =>
    intro g hg
    simpa [generateString] using hg
  | cons b rest ih =>
    intro g hg
    by_cases hlt : (g.length : Int) < len
    · by_cases hb : b < maxByte
      · simp only [generateString, if_pos hlt, if_pos hb]
        apply ih
        have hone : ((charSet.get? (b % charSet.length)).toList).length ≤ 1 := by
          cases charSet.get? (b % charSet.length) <;> simp
        have hlen : (g ++ (charSet.get? (b % charSet.length)).toList).length ≤ g.length + 1 := by
          simp only [List.length_append]
          omega
        have : ((g ++ (charSet.get? (b % charSet.length)).toList).length : Int) ≤
            (g.length : Int) + 1 := by exact_mod_cast hlen
        omega
      · simp only [generateString, if_pos hlt, if_neg hb]
        exact ih g hg
    · simpa [generateString, if_neg hlt] using hg

/-- Every character `generateString` appends is looked up in the character
set, so membership in the character set is preserved. -/
theorem generateString_mem (buffer : List Nat) (charSet : List Char) (len : Int)
    (maxByte : Nat) :
    ∀ generated : List Char, (∀ c ∈ generated, c ∈ charSet) →
      ∀ c ∈ generateString buffer generated charSet len maxByte, c ∈ charSet := by
  induction buffer with
  | nil =>
    intro g hg
    simpa [generateString] using hg
  | cons b rest ih =>
    intro g hg
    by_cases hlt : (g.length : Int) < len
    · by_cases hb : b < maxByte
      · simp only [generateString, if_pos hlt, if_pos hb]
        apply ih
        intro c hc
        rcases List.mem_append.mp hc with hcg | hcl
        · exact hg c hcg
        · exact List.get?_mem (Option.mem_toList.mp hcl)
      · simp only [generateString, if_pos hlt, if_neg hb]
        exact ih g hg
    · simpa [generateString, if_neg hlt] using hg

/-- If every prescribed byte-source response is a buffer (no errors) and
the refill loop returns a string, that string has exactly the target
length, provided the accumulated output had not overshot the target. -/
theorem generateLoop_length (charSet : List Char) (len : Int) :
    ∀ (responses : List ByteSourceResponse) (generated s : List Char),
      (∀ r ∈ responses, r.isOk = true) →
      (generated.length : Int) ≤ len →
      (generateLoop charSet len generated responses).2 = some s →
      (s.length : Int) = len := by
  intro responses
  induction responses with
  | nil =>
    intro g s _ hg hs
    by_cases hlt : (g.length : Int) < len
    · simp [generateLoop, if_pos hlt] at hs
    · simp [generateLoop, if_neg hlt] at hs
      subst hs
      omega
  | cons resp rest ih =>
    intro g s hok hg hs
    by_cases hlt : (g.length : Int) < len
    · cases resp with
      | error e =>
        have := hok (.error e) (List.mem_cons_self _ _)
        simp [Except.isOk, Except.toBool] at this
      | ok buffer =>
        simp only [generateLoop, if_pos hlt] at hs
        exact ih _ s (fun r hr => hok r (List.mem_cons_of_mem _ hr))
          (generateString_length_le buffer charSet len (getMaxByte charSet.length) g hg) hs
    · simp [generateLoop, if_neg hlt] at hs
      subst hs
      omega

/-- If every prescribed byte-source response is a buffer and the refill
loop returns a string, every character of that string belongs to the
character set, provided the accumulated output did. -/
theorem generateLoop_mem (charSet : List Char) (len : Int) :
    ∀ (responses : List ByteSourceResponse) (generated s : List Char),
      (∀ r ∈ responses, r.isOk = true) →
      (∀ c ∈ generated, c ∈ charSet) →
      (generateLoop charSet len generated responses).2 = some s →
      ∀ c ∈ s, c ∈ charSet := by
  intro responses
  induction responses with
  | nil =>
    intro g s _ hg hs
    by_cases hlt : (g.length : Int) < len
    · simp [generateLoop, if_pos hlt] at hs
    · simp [generateLoop, if_neg hlt] at hs
      subst hs
      exact hg
  | cons resp rest ih =>
    intro g s hok hg hs
    by_cases hlt : (g.length : Int) < len
    · cases resp with
      | error e =>
        have := hok (.error e) (List.mem_cons_self _ _)
        simp [Except.isOk, Except.toBool] at this
      | ok buffer =>
        simp only [generateLoop, if_pos hlt] at hs
        exact ih _ s (fun r hr => hok r (List.mem_cons_of_mem _ hr))
          (generateString_mem buffer charSet len (getMaxByte charSet.length) g hg) hs
    · simp [generateLoop, if_neg hlt] at hs
      subst hs
      exact hg

/-- Concrete options used in witnesses and counterexamples: target
length 2 and the numeric character set (alphabet "0123456789", so
`maxByte = 250` and the per-round request is `ceil(2*256/250) = 3`). -/
def optsNumeric2 : RandomStringOptions :=
  { length := some 2, charSetType := some CharacterSetType.Numeric }

/-! ### Claims -/

/-- C1: for every valid request (positive length) in which every
byte-source request succeeds, `generate` returns a string whose length
exactly equals the requested length; the requested length defaults to 32
when no length option is given. -/
theorem C1_generate_length (options : Option RandomStringOptions)
    (responses : List ByteSourceResponse) (s : List Char)
    (hok : ∀ r ∈ responses, r.isOk = true)
    (hpos : 0 < (parseOptions options).1)
    (hs : (generate options responses).2 = some s) :
    (s.length : Int) = (parseOptions options).1 ∧ (parseOptions none).1 = 32 := by
  refine ⟨?_, rfl⟩
  simp only [generate] at hs
  exact generateLoop_length _ _ responses [] s hok (by simpa using hpos.le) hs

/-- Witness for C1 at a concrete input: length 2, numeric character set,
one successful byte-source response `[0, 1, 2]`, output "01". -/
theorem C1_generate_length_witness :
    ((("01".toList : List Char).length : Int) = (parseOptions (some optsNumeric2)).1)
    ∧ (parseOptions none).1 = 32 :=
  C1_generate_length (some optsNumeric2) [.ok [0, 1, 2]] "01".toList
    (by decide) (by decide) (by decide)

/-- C2: (a) whenever generation completes over error-free byte-source
responses, every character of the output belongs to the resolved
character set; (b) a buffer all of whose bytes are `≥ maxByte`
contributes no character at all; (c) an in-range byte `b < maxByte`
(while the output is still short) appends exactly the character-set entry
at index `b % k`. -/
theorem C2_membership_and_rejection :
    (∀ (options : Option RandomStringOptions) (responses : List ByteSourceResponse)
        (s : List Char),
        (∀ r ∈ responses, r.isOk = true) →
        (generate options responses).2 = some s →
        ∀ c ∈ s, c ∈ getCharacterSet (parseOptions options).2.1 (parseOptions options).2.2)
    ∧ (∀ (buffer : List Nat) (generated charSet : List Char) (len : Int) (maxByte : Nat),
        (∀ b ∈ buffer, maxByte ≤ b) →
        generateString buffer generated charSet len maxByte = generated)
    ∧ (∀ (b : Nat) (rest : List Nat) (generated charSet : List Char) (len : Int)
        (maxByte : Nat),
        b < maxByte → (generated.length : Int) < len →
        generateString (b :: rest) generated charSet len maxByte =
          generateString rest (generated ++ (charSet.get? (b % charSet.length)).toList)
            charSet len maxByte) := by
  refine ⟨?_, ?_, ?_⟩
  · intro options responses s hok hs
    simp only [generate] at hs
    exact generateLoop_mem _ _ responses [] s hok (by simp) hs
  · intro buffer
    induction buffer with
    | nil => intro g cs len mb _; rfl
    | cons b rest ih =>
      intro g cs len mb hall
      by_cases hlt : (g.length : Int) < len
      · have hb : ¬ b < mb := by
          have := hall b (List.mem_cons_self _ _)
          omega
        simp only [generateString, if_pos hlt, if_neg hb]
        exact ih g cs len mb (fun x hx => hall x (List.mem_cons_of_mem _ hx))
      · simp [generateString, if_neg hlt]
  · intro b rest g cs len mb hb hlt
    simp [generateString, if_pos hlt, if_pos hb]

/-- Witness for C2 at concrete inputs: the completed output "01" over the
numeric set has its characters in that set, and a buffer of the single
rejected byte 255 (`maxByte = 250`) contributes nothing. -/
theorem C2_membership_and_rejection_witness :
    ('0' ∈ getCharacterSet (parseOptions (some optsNumeric2)).2.1
        (parseOptions (some optsNumeric2)).2.2)
    ∧ generateString [255] [] "0123456789".toList 2 250 = [] :=
  ⟨C2_membership_and_rejection.1 (some optsNumeric2) [.ok [0, 1, 2]] "01".toList
      (by decide) (by decide) '0' (by decide),
   C2_membership_and_rejection.2.1 [255] [] "0123456789".toList 2 250 (by decide)⟩

/-- C3: for `1 ≤ k ≤ 256`, `getMaxByte k = 256 - 256 % k` is the largest
multiple of `k` not exceeding 256; when `k` divides 256 it equals 256;
and every character set actually produced for the supported
(type, capitalisation) pairs has `getMaxByte ≥ 128`. -/
theorem C3_maxByte_threshold (k : Nat) (h1 : 1 ≤ k) (h2 : k ≤ 256) :
    (k ∣ getMaxByte k ∧ getMaxByte k ≤ 256 ∧
      ∀ m, k ∣ m → m ≤ 256 → m ≤ getMaxByte k)
    ∧ (k ∣ 256 → getMaxByte k = 256)
    ∧ (∀ t c, 128 ≤ getMaxByte ((getCharacterSet t c).length)) := by
  have hk : 0 < k := h1
  have hmb : getMaxByte k = k * (256 / k) := by
    have := Nat.div_add_mod 256 k
    unfold getMaxByte
    omega
  refine ⟨⟨?_, ?_, ?_⟩, ?_, ?_⟩
  · rw [hmb]
    exact dvd_mul_right k (256 / k)
  · unfold getMaxByte
    omega
  · intro m hdvd hle
    rcases hdvd with ⟨j, rfl⟩
    rw [hmb]
    have hj : j ≤ 256 / k := by
      refine (Nat.le_div_iff_mul_le hk).mpr ?_
      rw [Nat.mul_comm]
      exact hle
    exact Nat.mul_le_mul_left k hj
  · intro hdvd
    have hz : 256 % k = 0 := Nat.mod_eq_zero_of_dvd hdvd
    unfold getMaxByte
    omega
  · intro t c
    cases t <;> cases c <;> decide

/-- Witness for C3 at `k = 62` (the alphanumeric set size,
`getMaxByte 62 = 248`). -/
theorem C3_maxByte_threshold_witness :
    (62 ∣ getMaxByte 62 ∧ getMaxByte 62 ≤ 256)
    ∧ 128 ≤ getMaxByte ((getCharacterSet .Alphanumeric .Mixed).length) :=
  ⟨⟨(C3_maxByte_threshold 62 (by decide) (by decide)).1.1,
    (C3_maxByte_threshold 62 (by decide) (by decide)).1.2.1⟩,
   (C3_maxByte_threshold 62 (by decide) (by decide)).2.2 .Alphanumeric .Mixed⟩

/-- C4 counterexample: with target length 2 over the numeric set
(`maxByte = 250`), a first round whose buffer `[250, 0, 251]` yields one
accepted character leaves a remaining deficit of 1, for which the claim
predicts a second-round request of `ceil(1*256/250) = 2` bytes; the code
requests 3 bytes in both rounds (trace `[3, 3]`), using the original
length. -/
theorem C4_counterexample :
    generate (some optsNumeric2) [.ok [250, 0, 251], .ok [5, 6, 7]] =
      ([3, 3], some ['0', '5'])
    ∧ ceilDiv (1 * 256) (getMaxByte (getCharacterSet .Numeric .Mixed).length) = 2
    ∧ (3 : Nat) ≠ 2 := by
  refine ⟨by decide, by decide, by decide⟩

/-- C4 amended: every refill round of the blocking variant requests
`ceil(length * 256 / maxByte)` bytes with the ORIGINAL requested length,
regardless of the remaining deficit; every round of the suspending
variant passes the ambient `length` value (not a computed draw size) to
the byte source. -/
theorem C4_request_sizes (charSet : List Char) (len : Int) :
    (∀ (generated : List Char) (responses : List ByteSourceResponse),
      ∀ r ∈ (generateLoop charSet len generated responses).1,
        r = ceilDiv (len.toNat * 256) (getMaxByte charSet.length))
    ∧ (∀ (ambientLength maxByte : Nat) (generated : List Char)
        (responses : List ByteSourceResponse),
        ∀ r ∈ (generateStringAsync ambientLength charSet len maxByte generated responses).1,
          r = ambientLength) := by
  constructor
  · intro g responses
    induction responses generalizing g with
    | nil =>
      intro r hr
      by_cases h : (g.length : Int) < len <;> simp [generateLoop, h] at hr
    | cons resp rest ih =>
      intro r hr
      by_cases h : (g.length : Int) < len
      · cases resp with
        | error e =>
          simp [generateLoop, h] at hr
          exact hr
        | ok buffer =>
          simp only [generateLoop, if_pos h, List.mem_cons] at hr
          rcases hr with hr | hr
          · exact hr
          · exact ih _ r hr
      · simp [generateLoop, h] at hr
  · intro amb mb g responses
    induction responses generalizing g with
    | nil =>
      intro r hr
      simp [generateStringAsync] at hr
      exact hr
    | cons resp rest ih =>
      intro r hr
      cases resp with
      | error e =>
        simp [generateStringAsync] at hr
        exact hr
      | ok buffer =>
        by_cases h : (generateString buffer g charSet len mb).length < amb
        · simp only [generateStringAsync, if_pos h, List.mem_cons] at hr
          rcases hr with hr | hr
          · exact hr
          · exact ih _ r hr
        · simp [generateStringAsync, h] at hr
          exact hr

/-- Witness for C4 amended, read off at the concrete numeric-set run:
both recorded rounds request 3 bytes. -/
theorem C4_request_sizes_witness :
    (3 : Nat) = ceilDiv ((2 : Int).toNat * 256)
      (getMaxByte ((getCharacterSet .Numeric .Mixed).length)) :=
  (C4_request_sizes (getCharacterSet .Numeric .Mixed) 2).1 []
    [.ok [250, 0, 251], .ok [5, 6, 7]] 3 (by decide)

/-- C5 counterexample: a failing byte source makes `generate` return the
diagnostic text `getRandomBytesSafe internal error :: boom` through the
very same string channel as generated content — the result is a `some`
string containing characters (such as `g`) outside the resolved numeric
alphabet, so an error is conflated with a valid result string. -/
theorem C5_counterexample :
    generate (some optsNumeric2) [.error "boom".toList] =
      ([3], some (errorMessage "boom".toList))
    ∧ 'g' ∈ errorMessage "boom".toList
    ∧ 'g' ∉ getCharacterSet .Numeric .Mixed := by
  refine ⟨by decide, by decide, by decide⟩

/-- C5 amended: on the first failing byte-source response the blocking
loop stops immediately — no retry (the result ignores any further
prescribed responses), no partial output — but it surfaces the failure as
the string `getRandomBytesSafe internal error :: [error]` returned in the
success (string) channel rather than through a distinct error channel. -/
theorem C5_error_propagation (charSet : List Char) (len : Int) (generated e : List Char)
    (rest : List ByteSourceResponse) (h : (generated.length : Int) < len) :
    generateLoop charSet len generated (.error e :: rest) =
      ([ceilDiv (len.toNat * 256) (getMaxByte charSet.length)], some (errorMessage e)) := by
  simp [generateLoop, h]

/-- Witness for C5 amended at a concrete input: length 2, numeric set,
failing source, one further (ignored) response. -/
theorem C5_error_propagation_witness :
    generateLoop (getCharacterSet .Numeric .Mixed) 2 [] (.error "boom".toList :: [.ok [1]]) =
      ([ceilDiv ((2 : Int).toNat * 256)
          (getMaxByte ((getCharacterSet .Numeric .Mixed).length))],
       some (errorMessage "boom".toList)) :=
  C5_error_propagation (getCharacterSet .Numeric .Mixed) 2 [] "boom".toList
    [.ok [1]] (by decide)

/-- C6: the suspending variant evaluated at its failing inputs. With the
ambient `length` binding at 0 (a browser's `window.length`; in Node the
free identifier is not bound at all and the call throws before any
request), a request for a 32-character string is answered by a single
continuation invocation carrying the EMPTY string; and a byte-source
failure invokes the continuation once with the error but then falls
through (missing `return`) into `generateString` on an undefined buffer,
throwing a `TypeError` after the invocation. -/
theorem C6_async_continuation_bug :
    generateAsync 0 (some { length := some 32 }) [.ok []] =
      ([0], [.invoke none (some [])])
    ∧ generateAsync 0 (some { length := some 32 }) [.error "boom".toList] =
      ([0], [.invoke (some ("boom".toList)) none,
             .crash "TypeError: Cannot read properties of undefined".toList]) := by
  refine ⟨by decide, by decide⟩

/-- C7: the character-set resolver evaluated at the failing input
`(Alphanumeric, Uppercase)`: the result keeps length 62 but contains the
uppercase letters twice (indices 10 and 36 both hold `A`), so it is NOT a
sequence of pairwise-distinct characters, contradicting the resolver's
own documentation ("a string of unique characters"). -/
theorem C7_duplicate_characters :
    ((getCharacterSet .Alphanumeric .Uppercase).length = 62
      ∧ (getCharacterSet .Alphanumeric .Uppercase).get? 10 = some 'A'
      ∧ (getCharacterSet .Alphanumeric .Uppercase).get? 36 = some 'A')
    ∧ ¬ (getCharacterSet .Alphanumeric .Uppercase).Nodup := by
  refine ⟨by decide, by decide⟩

/-- C8: the character pools compose per type exactly as specified, with
the capitalisation transform applied after composition (Uppercase maps
the composed pool through `toUpperCase`, Lowercase through `toLowerCase`,
Mixed leaves it as composed); in particular (Binary, Mixed) resolves to
exactly "01". -/
theorem C8_composition :
    (getCharacterSet .Alphanumeric .Mixed = numbers ++ charsLower ++ charsUpper
      ∧ getCharacterSet .Alphabetic .Mixed = charsLower ++ charsUpper
      ∧ getCharacterSet .Numeric .Mixed = numbers
      ∧ getCharacterSet .Hex .Mixed = numbers ++ "abcdef".toList
      ∧ getCharacterSet .Binary .Mixed = "01".toList
      ∧ getCharacterSet .Octal .Mixed = "01234567".toList)
    ∧ (∀ t, getCharacterSet t .Uppercase = (getCharacterSet t .Mixed).map Char.toUpper)
    ∧ (∀ t, getCharacterSet t .Lowercase = (getCharacterSet t .Mixed).map Char.toLower) := by
  refine ⟨⟨rfl, rfl, rfl, rfl, rfl, rfl⟩, ?_, ?_⟩ <;> intro t <;> cases t <;> rfl

/-- C9: the option parser evaluated at the failing input. Supplying only
the US spelling `capitalization := Uppercase` parses to the default
`Mixed`, while the UK spelling `capitalisation := Uppercase` parses to
`Uppercase` — the two spellings are NOT treated equivalently, because
`parseOptions` reads only the UK-spelled property. -/
theorem C9_spelling_not_equivalent :
    parseOptions (some { capitalization := some .Uppercase }) =
      (32, CharacterSetType.Alphanumeric, Capitalisation.Mixed)
    ∧ parseOptions (some { capitalisation := some .Uppercase }) =
      (32, CharacterSetType.Alphanumeric, Capitalisation.Uppercase)
    ∧ parseOptions (some { capitalization := some .Uppercase }) ≠
      parseOptions (some { capitalisation := some .Uppercase }) := by
  refine ⟨by decide, by decide, by decide⟩

/-- C10: when the parsed length is zero or negative, the loop condition
`generated.length < length` is false from the start, so `generate`
returns the empty string and issues no byte-source request (empty request
trace), whatever responses the source would have given. -/
theorem C10_zero_length (options : Option RandomStringOptions)
    (responses : List ByteSourceResponse)
    (h : (parseOptions options).1 ≤ 0) :
    generate options responses = ([], some []) := by
  have hlt : ¬ ((([] : List Char).length : Int) < (parseOptions options).1) := by
    simpa using not_lt.mpr h
  cases responses with
  | nil =>
    simp [generate, generateLoop, hlt]
    exact h
  | cons r rest =>
    simp [generate, generateLoop, hlt]
    intro h0
    exact absurd h0 (not_lt.mpr h)

/-- Witness for C10 at a concrete input: explicit length 0, with
responses that would have been available but are never requested. -/
theorem C10_zero_length_witness :
    generate (some { length := some 0 }) [.ok [1, 2, 3]] = ([], some []) :=
  C10_zero_length (some { length := some 0 }) [.ok [1, 2, 3]] (by decide)

end TsRandomString
